import Mathlib

/-!
# Verification of the slAIde template-extraction / capacity / binding / overflow engine

Shallow embedding of the Python sources under `src/server/` (the capacity
estimator and overflow splitter of `services/ai_service.py`, the deck
generator and overflow validator of `services/pptx_service.py`, the binder of
`utils/slide_cloner.py`, and the title classification and master-font
fallback of `utils/slide_layout_extractor.py`), together with proofs and
refutations of the specification's claims about them.

Python `str` values are embedded as `List Char`; Python floats appearing in
the geometry arithmetic are embedded as exact rationals `ℚ` (the claims under
study are robust order/floor properties of that arithmetic); EMU lengths are
embedded as `ℤ`.
-/

namespace SlAIde

/-- Python strings are modelled as lists of characters. -/
abbrev Str := List Char

/-- Convert a Lean string literal to the embedded string type. -/
def lc (s : String) : Str := s.toList

/-- Python `int(q)` on a rational: truncation toward zero. -/
def pyInt (q : ℚ) : ℤ := if 0 ≤ q then ⌊q⌋ else ⌈q⌉

/-!
## Capacity estimator (`AIService._textbox_metrics_from_props`,
`AIService._estimate_text_capacity`, src/server/services/ai_service.py)

The inputs of `_textbox_metrics_from_props` after its normalisation steps:
`width`/`height` come from `position` (EMU integers), the four margins come
from `text_frame_props` with the documented fallbacks (`or 91440` resp.
`or 45720`, so falsy raw values resolve to the defaults), `font_size` from
`font_props` (falsy raw values raise, so the field is present here), and
`line_spacing` resolves to `1.3` when falsy or unparsable.
-/

/-- Resolved inputs of `_textbox_metrics_from_props`. -/
structure TextboxProps where
  width : ℤ
  height : ℤ
  marginLeft : ℤ := 91440
  marginRight : ℤ := 91440
  marginTop : ℤ := 45720
  marginBottom : ℤ := 45720
  fontSize : ℚ
  lineSpacing : ℚ := 13/10
  deriving Repr, DecidableEq

/-- `usable_width_emu = max(0, width - margin_left - margin_right)`. -/
def usableWidthEmu (p : TextboxProps) : ℤ :=
  max 0 (p.width - p.marginLeft - p.marginRight)

/-- `usable_height_emu = max(0, height - margin_top - margin_bottom)`. -/
def usableHeightEmu (p : TextboxProps) : ℤ :=
  max 0 (p.height - p.marginTop - p.marginBottom)

/-- `usable_width_pt = (usable_width_emu / 914400.0) * 72.0`. -/
def usableWidthPt (p : TextboxProps) : ℚ :=
  (usableWidthEmu p : ℚ) / 914400 * 72

/-- `usable_height_pt = (usable_height_emu / 914400.0) * 72.0`. -/
def usableHeightPt (p : TextboxProps) : ℚ :=
  (usableHeightEmu p : ℚ) / 914400 * 72

/-- `char_width_pt = float(font_size) * 1.2`. -/
def charWidthPt (p : TextboxProps) : ℚ := p.fontSize * (12/10)

/-- `line_height_pt = max(font_size * max(line_spacing, 1.3) * 1.3, font_size * 1.6)`. -/
def lineHeightPt (p : TextboxProps) : ℚ :=
  max (p.fontSize * max p.lineSpacing (13/10) * (13/10)) (p.fontSize * (16/10))

/-- `chars_per_line = max(5, int(usable_width_pt / char_width_pt)) if char_width_pt > 0 else 5`. -/
def charsPerLine (p : TextboxProps) : ℤ :=
  if 0 < charWidthPt p then max 5 (pyInt (usableWidthPt p / charWidthPt p)) else 5

/-- `lines_available = max(1, int(usable_height_pt / line_height_pt)) if line_height_pt > 0 else 1`. -/
def linesAvailable (p : TextboxProps) : ℤ :=
  if 0 < lineHeightPt p then max 1 (pyInt (usableHeightPt p / lineHeightPt p)) else 1

/-- `total_chars = max(0, chars_per_line * lines_available)` in `_estimate_text_capacity`. -/
def totalChars (p : TextboxProps) : ℤ := max 0 (charsPerLine p * linesAvailable p)

/-- `total_words = max(0, total_chars // 6)` (computed from the unclamped `total_chars`). -/
def totalWords (p : TextboxProps) : ℤ := max 0 (totalChars p / 6)

/-- `total_chars = max(20, min(total_chars, 5000))`: the clamped character capacity
returned by `_estimate_text_capacity` on its non-fallback path. -/
def capacityChars (p : TextboxProps) : ℤ := max 20 (min (totalChars p) 5000)

/-- `total_words = max(5, min(total_words, 1000))`: the clamped word capacity. -/
def capacityWords (p : TextboxProps) : ℤ := max 5 (min (totalWords p) 1000)

/-- A baseline set of estimator inputs: a box of zero width, one inch high,
18 pt font, with the code's default margins and line spacing. -/
def zeroWidthProps : TextboxProps :=
  { width := 0, height := 914400, fontSize := 18 }

/-!
## Text wrapping and splitting (`AIService._wrap_text_into_lines`,
`AIService._split_text_to_fit_box`, src/server/services/ai_service.py)

Python's `textwrap.wrap(s, width, break_long_words=False,
break_on_hyphens=False)` is embedded as a greedy fill over the
whitespace-separated words of `s`, joining each output line with single
spaces: with word breaking disabled the wrapper never splits a word, a word
longer than the width occupies a line of its own, and a further word joins
the current line exactly when the line length plus one separator plus the
word still fits the width.
-/

/-- Whitespace as recognised by Python `str.split()` / `str.strip()`
(restricted to the whitespace characters that occur in this pipeline). -/
def isWS (c : Char) : Bool := c = ' ' || c = '\t' || c = '\n' || c = '\r'

/-- Helper of `words`: `cur` is the current in-progress word, reversed. -/
def wordsAux : Str → Str → List Str
  | [], cur => if cur = [] then [] else [cur.reverse]
  | c :: rest, cur =>
    if isWS c then
      if cur = [] then wordsAux rest [] else cur.reverse :: wordsAux rest []
    else wordsAux rest (c :: cur)

/-- Python `s.split()` with no argument: the whitespace-separated words. -/
def words (s : Str) : List Str := wordsAux s []

/-- Python `s.lstrip()`. -/
def trimLeft (s : Str) : Str := s.dropWhile isWS

/-- Python `s.rstrip()`. -/
def trimRight (s : Str) : Str := (s.reverse.dropWhile isWS).reverse

/-- Python `s.strip()`. -/
def trim (s : Str) : Str := trimLeft (trimRight s)

/-- Python `sep.join(parts)`. -/
def joinSep (sep : Str) : List Str → Str
  | [] => []
  | [x] => x
  | x :: y :: xs => x ++ sep ++ joinSep sep (y :: xs)

/-- Python `s.split(sep)` for a single-character separator. -/
def splitChar (sep : Char) : Str → List Str
  | [] => [[]]
  | c :: rest =>
    if c = sep then [] :: splitChar sep rest
    else
      match splitChar sep rest with
      | [] => [[c]]
      | l :: ls => (c :: l) :: ls

/-- `s.split('\n')`; on the stripped strings this pipeline feeds it, Python
`s.splitlines()` coincides with `s.split('\n')`. -/
def splitLines : Str → List Str := splitChar '\n'

/-- Greedy fill of `textwrap`: groups the word list into lines. `cur` is the
current line, reversed; `curLen` its rendered length. A word always starts an
empty line (so an overlong word is kept whole on its own line); otherwise it
joins the line when `curLen + 1 + w.length ≤ width`. -/
def wrapFill (width : ℕ) : List Str → List Str → ℕ → List (List Str)
  | [], cur, _ => if cur = [] then [] else [cur.reverse]
  | w :: ws, cur, curLen =>
    if cur = [] then wrapFill width ws [w] w.length
    else if curLen + 1 + w.length ≤ width then
      wrapFill width ws (w :: cur) (curLen + 1 + w.length)
    else cur.reverse :: wrapFill width ws [w] w.length

/-- `textwrap.wrap(s, width, break_long_words=False, break_on_hyphens=False)`. -/
def wrapStr (width : ℕ) (s : Str) : List Str :=
  (wrapFill width (words s) [] 0).map (joinSep [' '])

/-- The bullet test of `_wrap_text_into_lines`:
`stripped.startswith(("- ", "• ", "* "))`. -/
def isBulletLine (stripped : Str) : Bool :=
  match stripped with
  | b :: sp :: _ => (b = '-' || b = '•' || b = '*') && sp = ' '
  | _ => false

/-- The body of the `for raw in s.splitlines()` loop of
`_wrap_text_into_lines`: the visual lines contributed by one raw line. -/
def processRaw (cpl : ℤ) (raw : Str) : List Str :=
  let line := trimRight raw
  if trim line = [] then []
  else
    let stripped := trimLeft line
    if isBulletLine stripped then
      let bp := stripped.take 2
      let body := trim (stripped.drop 2)
      match wrapStr (max 8 (cpl - 2)).toNat body with
      | [] => [trim bp]
      | w0 :: rest => (bp ++ w0) :: rest.map (fun l => ' ' :: ' ' :: l)
    else
      match wrapStr (max 8 cpl).toNat stripped with
      | [] => [stripped]
      | w0 :: rest => w0 :: rest

/-- `AIService._wrap_text_into_lines(text, chars_per_line)`: wrap text into
visual lines (the stripped text is split at explicit newlines, blank lines
are dropped, bullet lines keep their two-character marker and indent their
continuations by two spaces). -/
def wrapTextIntoLines (text : Str) (cpl : ℤ) : List Str :=
  let s := trim text
  if s = [] then []
  else ((splitLines s).map (processRaw cpl)).flatten

/-- `AIService._split_text_to_fit_box(text, props)` after its metrics are
computed: split `text` into the part that fits `la` wrapped lines and the
remainder. -/
def splitTextToFitBox (text : Str) (cpl : ℤ) (la : ℕ) : Str × Str :=
  let lines := wrapTextIntoLines text cpl
  if lines.length ≤ la then (trim text, [])
  else
    (trim (joinSep ['\n'] (lines.take la)), trim (joinSep ['\n'] (lines.drop la)))

/-!
## The splitting enforcement (`AIService._enforce_zero_overflow_by_splitting`
and its helpers, src/server/services/ai_service.py)
-/

/-- A text placeholder of a layout as consumed by the splitter: its
positional `idx` and the estimator inputs read from its `properties`. -/
structure LayoutPh where
  idx : ℕ
  props : TextboxProps
  deriving Repr, DecidableEq

/-- A layout as consumed by the splitter: its `name` and its text
placeholders (the placeholders of `type == 'text'`, in order). -/
structure LayoutT where
  name : Str
  textPhs : List LayoutPh
  deriving Repr, DecidableEq

/-- One slide-spec text placeholder entry `{idx, type: 'text', content}`. -/
structure SlidePh where
  idx : ℕ
  content : Str
  deriving Repr, DecidableEq

/-- A slide specification `{layout_name, placeholders}` (text entries only;
image entries and the `slide_number`/`slide_type`/`notes` metadata play no
role in the properties under study). -/
structure SlideSpec where
  layoutName : Str
  phs : List SlidePh
  deriving Repr, DecidableEq

/-- `is_title_box(lp)`:
`font_size > 32 or (cap['chars'] < 150 and font_size > 24)`. -/
def isTitleBox (lp : LayoutPh) : Bool :=
  decide ((32:ℚ) < lp.props.fontSize) ||
    (decide (capacityChars lp.props < 150) && decide ((24:ℚ) < lp.props.fontSize))

/-- `short_title(s)`: collapse whitespace; if at most 60 characters keep it,
else take the first 8 words, cut at 60 characters and strip the right end. -/
def shortTitle (s : Str) : Str :=
  let s' := joinSep [' '] (words (trim s))
  if s'.length ≤ 60 then s'
  else trimRight ((joinSep [' '] ((words s').take 8)).take 60)

/-- `_split_text_to_fit_box(text, props)` (metrics taken from the props). -/
def splitTextToFitBoxProps (text : Str) (props : TextboxProps) : Str × Str :=
  splitTextToFitBox text (charsPerLine props) (linesAvailable props).toNat

/-- Python `s.replace(a ++ b, '')` for a two-character pattern: drop every
(left-to-right, non-overlapping) occurrence of the pattern. -/
def removePat2 (a b : Char) : Str → Str
  | [] => []
  | [c] => [c]
  | c :: d :: rest =>
    if c = a ∧ d = b then removePat2 a b rest
    else c :: removePat2 a b (d :: rest)

/-- Python `s.split(pat, 1)` helper: the first occurrence of `pat` in `s`,
as the parts before and after it (`none` when `pat` does not occur). -/
def splitOnceAux (pat : Str) : Str → Option (Str × Str)
  | [] => none
  | c :: rest =>
    if pat.isPrefixOf (c :: rest) then some ([], (c :: rest).drop pat.length)
    else
      match splitOnceAux pat rest with
      | none => none
      | some (pre, post) => some (c :: pre, post)

/-- Python `s.lower()`. -/
def lowerStr (s : Str) : Str := s.map Char.toLower

/-- The conjunction separators tried by `_split_long_line`, in order. -/
def conjList : List Str := [lc " and ", lc " or ", lc " but ", lc " while ", lc " with "]

/-- The accumulator loop of `_split_by_commas`: walk the comma-separated
parts carrying the accumulated `points` and the `current` point. -/
def commaLoop : List Str → List Str → Str → List Str
  | [], points, cur => if cur = [] then points else points ++ [cur]
  | p :: rest, points, cur =>
    let part := trim p
    if part = [] then commaLoop rest points cur
    else
      let wp := (words part).length
      let wc := if cur = [] then 0 else (words cur).length
      if 0 < wc ∧ wc + wp ≤ 10 then commaLoop rest points (cur ++ lc ", " ++ part)
      else
        let points' := if cur = [] then points else points ++ [cur]
        if wp ≤ 10 then commaLoop rest points' part
        else commaLoop rest (points' ++ [part]) []

/-- `_split_by_commas(text)`. -/
def splitByCommas (text : Str) : List Str :=
  let pts := commaLoop (splitChar ',' text) [] []
  if pts = [] then [text] else pts

/-- `_split_long_line(line)`, with a fuel argument standing for the
recursion depth: the recursive call runs on a strict suffix of the line (the
part after the first conjunction), so `line.length` fuel is never exhausted.
The conjunction branch selects the first conjunction of `conjList` occurring
in the line: the code tests occurrence in `line.lower()` and then splits the
original line, skipping to the next conjunction when that split yields fewer
than two parts, which selects exactly the first case-sensitive occurrence
(occurrence in `line` implies occurrence in `line.lower()`). -/
def splitLongLineF : ℕ → Str → List Str
  | 0, line => [line]
  | fuel+1, line =>
    if line.contains ';' then
      ((splitChar ';' line).map fun part =>
        let p := trim part
        if p = [] then []
        else if (words p).length ≤ 10 then [p]
        else splitByCommas p).flatten
    else if line.contains ',' then splitByCommas line
    else
      match conjList.findSome? (fun conj => splitOnceAux conj line) with
      | some (p1raw, p2raw) =>
        let p1 := trim p1raw
        let p2 := trim p2raw
        (if p1 = [] then [] else [p1]) ++
          (if p2 = [] then []
           else if 10 < (words p2).length then splitLongLineF fuel p2
           else [p2])
      | none =>
        let ws := words line
        let mid := ws.length / 2
        let p1 := joinSep [' '] (ws.take mid)
        let p2 := joinSep [' '] (ws.drop mid)
        (if p1 = [] then [] else [p1]) ++ (if p2 = [] then [] else [p2])

/-- `_split_long_line(line)`. -/
def splitLongLine (line : Str) : List Str := splitLongLineF line.length line

/-- `_split_into_points(text)`: strip bullet markers, split on newlines,
keep short lines whole and split long ones at natural break points. -/
def splitIntoPoints (text : Str) : List Str :=
  if text = [] then []
  else
    let t := removePat2 '*' ' ' (removePat2 '-' ' ' (removePat2 '•' ' ' text))
    ((splitChar '\n' t).map fun l =>
      let line := trim l
      if line = [] then []
      else if (words line).length ≤ 10 then [line]
      else splitLongLine line).flatten

/-- `_structure_as_bullets(text)`: newline-joined points, no markers. -/
def structureAsBullets (text : Str) : Str :=
  if trim text = [] then text
  else joinSep ['\n'] (splitIntoPoints text)

/-- The error message produced by Python when a missing method is called. -/
def attrErrMsg : Str :=
  lc "AttributeError: AIService object has no attribute _get_placeholder_font_size"

/-- `self._get_placeholder_font_size(lp)` as called at ai_service.py lines
1589 and 1598 (and 874): the method is defined nowhere in the repository, so
in Python the attribute lookup raises `AttributeError`; the embedding models
every call as raising. -/
def getPlaceholderFontSize (_lp : LayoutPh) : Except Str ℚ := .error attrErrMsg

/-- The dict-comprehension lookup `{p['idx']: p for p in ...}[i]`: the last
entry with the given index wins. -/
def findPhLast (phs : List SlidePh) (i : ℕ) : Option SlidePh :=
  phs.foldl (fun acc p => if p.idx = i then some p else acc) none

/-- Write `content` into the slide entry (or entries) carrying index `i`,
modelling the in-place mutation `ph['content'] = ...`. -/
def setPhContent (phs : List SlidePh) (i : ℕ) (c : Str) : List SlidePh :=
  phs.map fun p => if p.idx = i then { p with content := c } else p

/-- The `for lp in cont_content_lps` fill loop of the continuation-slide
builder: each content box takes the bullet-structured fitting part of what
remains; boxes reached after the text is exhausted keep empty content. -/
def fillContentBoxes : List LayoutPh → Str → List SlidePh × Str
  | [], remaining => ([], remaining)
  | lp :: rest, remaining =>
    if remaining = [] then
      (({ idx := lp.idx, content := [] } : SlidePh) :: (fillContentBoxes rest []).1, [])
    else
      let (fit, rem) := splitTextToFitBoxProps remaining lp.props
      let (phs, rem') := fillContentBoxes rest (trim rem)
      (({ idx := lp.idx, content := structureAsBullets fit } : SlidePh) :: phs, rem')

/-- The body of the continuation `while` loop (ai_service.py 1574–1615):
build one continuation slide from `remaining`, returning it together with
the text still left over.  Building the title entry and initialising each
content entry calls the undefined `_get_placeholder_font_size`, so the
builder raises whenever the continuation layout has any text placeholder. -/
def buildContSlide (contLayout : LayoutT) (contTitle : Str) (remaining : Str) :
    Except Str (SlideSpec × Str) := do
  let contTextPhs := contLayout.textPhs
  let titlePhs ← match contTextPhs.find? isTitleBox with
    | some lp => do
        let _ ← getPlaceholderFontSize lp
        pure [({ idx := lp.idx, content := contTitle } : SlidePh)]
    | none => pure ([] : List SlidePh)
  let contContentLps := contTextPhs.filter (fun lp => !isTitleBox lp)
  let _ ← contContentLps.mapM getPlaceholderFontSize
  let (contentPhs, rem') := fillContentBoxes contContentLps remaining
  pure ({ layoutName := contLayout.name, phs := titlePhs ++ contentPhs }, rem')

/-- The continuation `while remaining and safety_loops < 12` loop, abstracted
over the slide builder: at most `fuel` slides are appended, and text still
remaining when the fuel runs out is discarded. -/
def contLoopWith (build : Str → Except Str (SlideSpec × Str)) :
    ℕ → Str → Except Str (List SlideSpec)
  | 0, _ => pure []
  | fuel+1, remaining =>
    if remaining = [] then pure []
    else do
      let (slide, rem') ← build remaining
      let rest ← contLoopWith build fuel rem'
      pure (slide :: rest)

/-- The continuation loop as run by the source, with its bound of 12. -/
def contLoopN (contLayout : LayoutT) (contTitle : Str) (remaining : Str) :
    Except Str (List SlideSpec) :=
  contLoopWith (buildContSlide contLayout contTitle) 12 remaining

/-- Title enforcement for one slide (ai_service.py 1519–1539): shorten the
title with `short_title`, queueing the cut-off part, then line-fit the title
box, queueing the remainder. -/
def enforceTitle (titleLp : LayoutPh) (phs : List SlidePh) : List SlidePh × List Str :=
  match findPhLast phs titleLp.idx with
  | none => (phs, [])
  | some tph =>
    let original := trim tph.content
    let st := shortTitle original
    let shortened := original ≠ [] ∧ st ≠ original
    let phs1 := if shortened then setPhContent phs titleLp.idx st else phs
    let carry1 :=
      if shortened then
        (let extra := trim (original.drop st.length)
         if extra ≠ [] then [extra] else [])
      else []
    let cur := (((findPhLast phs1 titleLp.idx).map fun p => p.content)).getD []
    let (fit, rem) := splitTextToFitBoxProps cur titleLp.props
    let phs2 := setPhContent phs1 titleLp.idx fit
    (phs2, carry1 ++ (if rem ≠ [] then [rem] else []))

/-- The `for lp in content_lps` split loop of one slide (ai_service.py
1542–1556): replace each non-empty content box by its fitting part and queue
each remainder. -/
def splitContentBoxes : List LayoutPh → List SlidePh → List SlidePh × List Str
  | [], phs => (phs, [])
  | lp :: rest, phs =>
    match findPhLast phs lp.idx with
    | none => splitContentBoxes rest phs
    | some sp =>
      let txt := trim sp.content
      if txt = [] then splitContentBoxes rest phs
      else
        let (fit, rem) := splitTextToFitBoxProps txt lp.props
        let phsNext := setPhContent phs lp.idx fit
        let (phsOut, carry) := splitContentBoxes rest phsNext
        (phsOut, (if rem ≠ [] then [rem] else []) ++ carry)

/-- The last-entry-wins layout dictionary
`{layout['name']: layout for layout in layouts}`. -/
def layoutMapOf (layouts : List LayoutT) (n : Str) : Option LayoutT :=
  layouts.foldl (fun acc l => if l.name = n then some l else acc) none

/-- Processing of one original slide by
`_enforce_zero_overflow_by_splitting` (ai_service.py 1500–1615): enforce the
title, split the content boxes, and turn the queued carry-over into
continuation slides; returns the slide (contents updated in place) followed
by its continuation slides. -/
def enforceSlide (layoutMap : Str → Option LayoutT) (contLayout : LayoutT)
    (slide : SlideSpec) : Except Str (List SlideSpec) :=
  match layoutMap slide.layoutName with
  | none => pure [slide]
  | some layout =>
    let textLps := layout.textPhs
    if textLps = [] then pure [slide]
    else
      let titleLp? := textLps.find? isTitleBox
      let contentLps := textLps.filter (fun lp => !isTitleBox lp)
      let st1 : List SlidePh × List Str :=
        match titleLp? with
        | some tlp => enforceTitle tlp slide.phs
        | none => (slide.phs, [])
      let st2 := splitContentBoxes contentLps st1.1
      let carry := st1.2 ++ st2.2
      let remaining := trim (joinSep ['\n'] (carry.filter (fun c => trim c ≠ [])))
      if remaining = [] then pure [{ slide with phs := st2.1 }]
      else
        let baseTitle :=
          match titleLp? with
          | some tlp => trim ((((findPhLast st2.1 tlp.idx).map fun p => p.content)).getD [])
          | none => []
        let contTitle :=
          shortTitle (if baseTitle ≠ [] then trim (baseTitle ++ lc " (cont.)") else lc "Continued")
        do
          let conts ← contLoopN contLayout contTitle remaining
          pure ({ slide with phs := st2.1 } :: conts)

/-- `_enforce_zero_overflow_by_splitting(slides, layouts, slide_size)`.  The
choice of the continuation layout (`_pick_best_text_continuation_layout`, a
geometry ranking) is passed in as `contLayout?`: when the picker finds no
suitable layout the input is returned unchanged.  The final renumbering of
`slide_number` is metadata not modelled here. -/
def enforceZeroOverflowBySplitting (slides : List SlideSpec) (layouts : List LayoutT)
    (contLayout? : Option LayoutT) : Except Str (List SlideSpec) :=
  match contLayout? with
  | none => pure slides
  | some cl => do
    let groups ← slides.mapM (enforceSlide (layoutMapOf layouts) cl)
    pure groups.flatten

/-!
## Deck-level overflow enforcement and validation
(`PPTXService._enforce_text_fit_by_measurement`, `_iteratively_fit_text`,
`_detect_text_overflow_fallback`, `_count_wrapped_lines`,
`_validate_no_overflow` and the tail of `generate_deck`,
src/server/services/pptx_service.py)

The primary `_detect_text_overflow` delegates to python-pptx's `fit_text`
(the library's font rendering); the repository's own deterministic
measurement — used whenever `fit_text` is unavailable or fails — is
`_detect_text_overflow_fallback`, and that geometric measurement is the
detection modelled here.
-/

/-- A generated text box as seen by the safety net: its current text and the
geometry/font values read from the shape (margins resolved through the
`getattr(..., 91440)` / `getattr(..., 45720)` defaults, the font size from
the first run with an explicit size, default `914400 * 18 / 72`). -/
structure GenTextBox where
  content : Str
  widthEmu : ℤ
  heightEmu : ℤ
  marginLeft : ℤ := 91440
  marginRight : ℤ := 91440
  marginTop : ℤ := 45720
  marginBottom : ℤ := 45720
  fontSizeEmu : ℚ := 228600
  deriving Repr, DecidableEq

/-- `usable_width = box_width - margin_left - margin_right` (unclamped). -/
def usableWidthOf (b : GenTextBox) : ℤ := b.widthEmu - b.marginLeft - b.marginRight

/-- `usable_height = box_height - margin_top - margin_bottom` (unclamped). -/
def usableHeightOf (b : GenTextBox) : ℤ := b.heightEmu - b.marginTop - b.marginBottom

/-- The greedy counting loop of `_count_wrapped_lines`: one paragraph's
line count, starting from `cur` used length and `lcount` lines. -/
def countLinesLoop (cpl : ℤ) : List Str → ℤ → ℕ → ℕ
  | [], _, lcount => lcount
  | w :: ws, cur, lcount =>
    let wl : ℤ := w.length + 1
    if cpl < cur + wl then countLinesLoop cpl ws wl (lcount + 1)
    else countLinesLoop cpl ws (cur + wl) lcount

/-- The `chars_per_line = max(1, int(usable_width_emu / char_width))` of
`_count_wrapped_lines`, with `char_width = font_size_emu * 0.6`. -/
def fallbackCpl (uwEmu : ℤ) (fsEmu : ℚ) : ℤ :=
  max 1 (pyInt ((uwEmu : ℚ) / (fsEmu * (6/10))))

/-- `_count_wrapped_lines(text, usable_width_emu, font_size_emu)`. -/
def countWrappedLines (text : Str) (uwEmu : ℤ) (fsEmu : ℚ) : ℕ :=
  if trim text = [] then 0
  else
    let cpl := fallbackCpl uwEmu fsEmu
    ((splitChar '\n' text).map fun para =>
      if trim para = [] then 1
      else
        let ws := words para
        if ws = [] then 1
        else countLinesLoop cpl ws 0 1).sum

/-- `_detect_text_overflow_fallback(shape, text_frame)`: wrapped line count
times `font_size * 1.5` line height, times the `1.1` safety factor, compared
against the usable height. -/
def detectTextOverflowFallback (b : GenTextBox) : Bool :=
  let lineCount := countWrappedLines b.content (usableWidthOf b) b.fontSizeEmu
  let heightNeeded := (lineCount : ℚ) * (b.fontSizeEmu * (15/10)) * (11/10)
  decide ((usableHeightOf b : ℚ) < heightNeeded)

/-- The `fit_text`-based attempt of `_detect_text_overflow` (pptx_service.py
466–537): python-pptx renders the text, and the code flags overflow when any
run's font size would have to shrink by more than 1% to fit.  The rendering
lives in the python-pptx library, outside this repository, so the attempt
enters the model as an oracle: `some v` when the attempt completes with
verdict `v`, `none` when it raises — `AttributeError` when the installed
python-pptx lacks `fit_text`, or any other exception. -/
abbrev FitTextOracle := GenTextBox → Option Bool

/-- `_detect_text_overflow(shape, text_frame)`: try the `fit_text`-based
check first; when that attempt raises (`except AttributeError` at line 499,
`except Exception` at line 534) fall back to the geometric
`_detect_text_overflow_fallback`. -/
def detectTextOverflow (ft : FitTextOracle) (b : GenTextBox) : Bool :=
  match ft b with
  | some v => v
  | none => detectTextOverflowFallback b

/-- Python `truncated.rfind(' ')`: index of the last space, `-1` if none. -/
def rfindSpace (s : Str) : ℤ :=
  match s.reverse.findIdx? (· = ' ') with
  | none => -1
  | some k => (s.length : ℤ) - 1 - k

/-- `_truncate_at_word_boundary(text, max_chars)`. -/
def truncateAtWordBoundary (text : Str) (maxChars : ℕ) : Str :=
  if text.length ≤ maxChars then text
  else
    let truncated := text.take maxChars
    let lastSpace := rfindSpace truncated
    let clipped :=
      if (maxChars : ℚ) * (8/10) < (lastSpace : ℚ) then truncated.take lastSpace.toNat
      else truncated
    trimRight clipped

/-- The binary-search loop of `_iteratively_fit_text` (at most 20
iterations): narrow `[minC, maxC]` around the largest truncation of
`original` that the overflow detection accepts, keeping the best fit. -/
def fitLoop (ft : FitTextOracle) (b : GenTextBox) (original : Str) :
    ℕ → ℤ → ℤ → Str → Str
  | 0, _, _, best => best
  | fuel+1, minC, maxC, best =>
    if maxC - minC ≤ 5 then best
    else
      let mid := (minC + maxC) / 2
      if mid ≤ 0 then best
      else
        let test := truncateAtWordBoundary original mid.toNat
        if detectTextOverflow ft { b with content := test } then
          fitLoop ft b original fuel minC mid best
        else fitLoop ft b original fuel mid maxC test

/-- `_iteratively_fit_text(shape, text_frame, original_text)`: binary-search
the longest prefix (at word boundaries) that fits; append `'...'` when the
text was shortened; fall back to a 30-character stub if nothing fit. -/
def iterativelyFitText (ft : FitTextOracle) (b : GenTextBox) (original : Str) : Str :=
  if trim original = [] then original
  else if !detectTextOverflow ft { b with content := original } then original
  else
    let best := fitLoop ft b original 20 0 (original.length : ℤ) []
    if best ≠ [] then
      if best.length < original.length then trimRight best ++ lc "..." else best
    else truncateAtWordBoundary original 30 ++ lc "..."

/-- Per-box step of `_enforce_text_fit_by_measurement`: boxes whose stripped
text is empty are skipped; detected overflows are replaced by their
iteratively fitted text. -/
def enforceBox (ft : FitTextOracle) (b : GenTextBox) : GenTextBox :=
  if trim b.content = [] then b
  else if detectTextOverflow ft b then
    let fitted := iterativelyFitText ft b b.content
    if fitted ≠ b.content then { b with content := fitted } else b
  else b

/-- `_enforce_text_fit_by_measurement(presentation)` over a deck of slides
of text boxes (the overflow report it returns feeds only console warnings). -/
def enforceTextFit (ft : FitTextOracle) (deck : List (List GenTextBox)) :
    List (List GenTextBox) :=
  deck.map (List.map (enforceBox ft))

/-- `_validate_no_overflow(presentation)`: the number of boxes with
non-empty stripped text that `_detect_text_overflow` still flags. -/
def validateNoOverflow (ft : FitTextOracle) (deck : List (List GenTextBox)) : ℕ :=
  (deck.map fun slide =>
    (slide.filter fun b => decide (trim b.content ≠ []) && detectTextOverflow ft b).length).sum

/-- The tail of `generate_deck` (pptx_service.py 836–855): run the safety
net, then the final validation, raising when any violation remains and
otherwise returning the deck that gets serialised. -/
def generateDeckFinal (ft : FitTextOracle) (deck : List (List GenTextBox)) :
    Except Str (List (List GenTextBox)) :=
  let deckFit := enforceTextFit ft deck
  let violations := validateNoOverflow ft deckFit
  if 0 < violations then
    .error (lc "CRITICAL: text boxes still overflow after enforcement! Generation failed.")
  else .ok deckFit

/-!
## The binder (`_copy_all_shapes` / `_fill_placeholder_in_cloned_slide`,
src/server/utils/slide_cloner.py) and the deck loop (`generate_deck`,
src/server/services/pptx_service.py 786–830)
-/

/-- A shape of the source slide as the binder walks it: whether it is a
placeholder, and its original content. -/
structure SrcShape where
  isPlaceholder : Bool
  original : Str
  deriving Repr, DecidableEq

/-- `_copy_all_shapes(source_slide, target_slide, placeholder_contents, ...)`:
walk the shapes, counting placeholders; a placeholder whose counter appears
in the content map is filled with the supplied content, one absent from the
map keeps its original content (`"placeholder N has no content, keeping
original"`); non-placeholder shapes are carried by the layout.  The result
lists each placeholder's index and final content; no code path raises for a
missing index. -/
def copyAllShapes : List SrcShape → (ℕ → Option Str) → ℕ → List (ℕ × Str)
  | [], _, _ => []
  | sh :: rest, contentMap, counter =>
    if sh.isPlaceholder then
      (counter, (contentMap counter).getD sh.original) :: copyAllShapes rest contentMap (counter + 1)
    else copyAllShapes rest contentMap counter

/-- The original contents of the placeholder shapes, in discovery order. -/
def placeholderOriginals (shapes : List SrcShape) : List Str :=
  shapes.filterMap fun sh => if sh.isPlaceholder then some sh.original else none

/-- Index a list from `c` upward (specification helper for `copyAllShapes`). -/
def enumFrom (c : ℕ) : List Str → List (ℕ × Str)
  | [] => []
  | x :: xs => (c, x) :: enumFrom (c + 1) xs

/-- The per-spec loop of `generate_deck` (pptx_service.py 786–830),
abstracted over the clone step: a spec whose `layout_name` is not in the
layout map is skipped (`"error: layout '...' not found, skipping"` —
`continue`), a clone that raises is skipped (`except: ... continue`), and a
successful clone is appended to the output deck. -/
def generateDeckSlides (layoutMap : Str → Option LayoutT)
    (cloneFn : SlideSpec → LayoutT → Option (List (ℕ × Str))) :
    List SlideSpec → List (List (ℕ × Str))
  | [] => []
  | spec :: rest =>
    match layoutMap spec.layoutName with
    | none => generateDeckSlides layoutMap cloneFn rest
    | some lt =>
      match cloneFn spec lt with
      | none => generateDeckSlides layoutMap cloneFn rest
      | some s => s :: generateDeckSlides layoutMap cloneFn rest

/-!
## Title classification and master-font fallback
(`extract_slide_as_layout` lines 758–795 and
`get_default_fonts_from_master` lines 586–612,
src/server/utils/slide_layout_extractor.py)
-/

/-- Python `s.upper()` (over the identifier characters involved). -/
def upperStr (s : Str) : Str := s.map Char.toUpper

/-- Python `pat in s`: substring containment. -/
def containsSub (pat : Str) : Str → Bool
  | [] => pat.isPrefixOf []
  | c :: rest => pat.isPrefixOf (c :: rest) || containsSub pat rest

/-- First marker step: `"TITLE" in pt_str or "CENTER_TITLE" in pt_str or
"SUBTITLE" in pt_str` on the upper-cased `placeholder_format.type` string
(the empty string stands for a shape that is not a placeholder, where the
guarded lookup leaves the flag untouched). -/
def titleTypeMarker (phType : Str) : Bool :=
  let pt := upperStr phType
  containsSub (lc "TITLE") pt || containsSub (lc "CENTER_TITLE") pt ||
    containsSub (lc "SUBTITLE") pt

/-- Second marker step: `"TITLE" in name_u or "SUBTITLE" in name_u` on the
upper-cased shape name. -/
def titleNameMarker (shapeName : Str) : Bool :=
  let nu := upperStr shapeName
  containsSub (lc "TITLE") nu || containsSub (lc "SUBTITLE") nu

/-- Either explicit title marker. -/
def hasTitleMarker (phType shapeName : Str) : Bool :=
  titleTypeMarker phType || titleNameMarker shapeName

/-- The `is_likely_title` chain of `extract_slide_as_layout`: placeholder
type markers, then shape-name markers, and only when neither matched the
position heuristic `shape.top < 5143500 * 0.25` (`= 1285875` EMU). -/
def isLikelyTitle (phType shapeName : Str) (top : ℤ) : Bool :=
  if titleTypeMarker phType then true
  else if titleNameMarker shapeName then true
  else decide (top < 1285875)

/-- A run of a master-slide paragraph: its text and its explicit run-level
font name/size (both `None` for a freshly added run). -/
structure MRun where
  text : Str
  fontName : Option Str
  fontSizePt : Option ℚ
  deriving Repr, DecidableEq

/-- A master-slide shape as walked by method 3 of
`get_default_fonts_from_master`: its vertical position, whether it has a
text frame, and the runs of its first paragraph (`none` when the text frame
has no paragraphs). -/
structure MShape where
  top : ℤ
  hasTextFrame : Bool
  paraRuns : Option (List MRun)
  deriving Repr, DecidableEq

/-- A font name/size pair of the extracted theme-font result. -/
structure FontInfo where
  name : Str
  size : ℚ
  deriving Repr, DecidableEq

/-- The `{'title': ..., 'body': ...}` result being built. -/
structure ThemeFonts where
  title : FontInfo
  body : FontInfo
  deriving Repr, DecidableEq

/-- The initial result of `get_default_fonts_from_master`. -/
def defaultThemeFonts : ThemeFonts :=
  { title := { name := lc "Calibri", size := 44 },
    body := { name := lc "Calibri", size := 18 } }

/-- The run added by `para.add_run()` followed by `.text = "X"`: a probe run
with no explicit run-level font. -/
def probeRun : MRun := { text := lc "X", fontName := none, fontSizePt := none }

/-- The `for shape in slide_master.shapes` loop of method 3
(slide_layout_extractor.py 589–612): a text shape whose first paragraph has
no runs gets the probe run added — an in-place mutation of the loaded
document that is never undone — and the first run-level font name found
updates the title font (when `shape.top < 5143500 * 0.2 = 1028700`) or the
body font, and breaks the loop; a run-level size only replaces the default
when present and non-zero (`font.size.pt if font.size else None`, then the
truthiness test `if font_size:`).  Returns the updated fonts and the (possibly mutated) shapes. -/
def masterShapeScan (fonts : ThemeFonts) : List MShape → ThemeFonts × List MShape
  | [] => (fonts, [])
  | sh :: rest =>
    if sh.hasTextFrame then
      match sh.paraRuns with
      | some runs =>
        let runsNew := if runs = [] then [probeRun] else runs
        let shNew : MShape := { sh with paraRuns := some runsNew }
        match runsNew with
        | [] =>
          let (f, rs) := masterShapeScan fonts rest
          (f, shNew :: rs)
        | run :: _ =>
          match run.fontName with
          | some nm =>
            let szOr : ℚ → ℚ := fun old =>
              match run.fontSizePt with
              | some sz => if sz = 0 then old else sz
              | none => old
            let fontsNew :=
              if sh.top < 1028700 then
                { fonts with title := { name := nm, size := szOr fonts.title.size } }
              else
                { fonts with body := { name := nm, size := szOr fonts.body.size } }
            (fontsNew, shNew :: rest)
          | none =>
            let (f, rs) := masterShapeScan fonts rest
            (f, shNew :: rs)
      | none =>
        let (f, rs) := masterShapeScan fonts rest
        (f, sh :: rs)
    else
      let (f, rs) := masterShapeScan fonts rest
      (f, sh :: rs)

/-- Method 3 of `get_default_fonts_from_master` with its guard
(line 587): the master shapes are probed only while one of the two theme
fonts is still the `'Calibri'` default. -/
def masterFontFallback (fonts : ThemeFonts) (shapes : List MShape) :
    ThemeFonts × List MShape :=
  if fonts.title.name = lc "Calibri" ∨ fonts.body.name = lc "Calibri" then
    masterShapeScan fonts shapes
  else (fonts, shapes)

/-!
## Concrete fixtures used by the counterexamples and witnesses
-/

/-- A content text box 6,000,000 × 3,500,000 EMU with a 24 pt font and the
default margins and line spacing: its metrics are `chars_per_line = 15`,
`lines_available = 6` (capacity 90 characters). -/
def contentBoxProps : TextboxProps :=
  { width := 6000000, height := 3500000, fontSize := 24 }

/-- A layout placeholder holding that box: not a title box (24 pt is over
neither the 32 pt nor the 24 pt threshold). -/
def lpContent : LayoutPh := { idx := 0, props := contentBoxProps }

/-- The layout named `"Body"` holding just `lpContent`.  It satisfies every
constraint of `_pick_best_text_continuation_layout` (text placeholders
only, no image placeholder, a non-title content box, and ≈66.5% negative
space on the default slide, under the 70% cut-off), so it is a layout the
picker can return. -/
def layoutBody : LayoutT := { name := lc "Body", textPhs := [lpContent] }

/-- Seven 12-character words: at `chars_per_line = 15` (wrap width 15) each
word occupies its own line, so the content wraps to 7 lines and only 6 fit. -/
def overflowContent : Str :=
  lc "AAAAAAAAAAAA BBBBBBBBBBBB CCCCCCCCCCCC DDDDDDDDDDDD EEEEEEEEEEEE FFFFFFFFFFFF GGGGGGGGGGGG"

/-- A slide spec whose content box overflows by one line. -/
def slideOverflow : SlideSpec :=
  { layoutName := lc "Body", phs := [{ idx := 0, content := overflowContent }] }

/-- Eight 12-character words: 8 wrapped lines, of which 6 fit the box and
2 carry over to a continuation slide. -/
def longContent : Str :=
  lc "HHHHHHHHHHHH IIIIIIIIIIII JJJJJJJJJJJJ KKKKKKKKKKKK LLLLLLLLLLLL MMMMMMMMMMMM NNNNNNNNNNNN OOOOOOOOOOOO"

/-- A second overflowing slide spec. -/
def slideLong : SlideSpec :=
  { layoutName := lc "Body", phs := [{ idx := 0, content := longContent }] }

/-- A generated text box whose two-character text fits comfortably: two
inches wide, one inch high, default margins, 18 pt (= 228600 EMU) font. -/
def fittingBox : GenTextBox :=
  { content := lc "Hi", widthEmu := 1828800, heightEmu := 914400 }

/-- The `fit_text` attempt when the installed python-pptx lacks the method:
every call raises `AttributeError`, so detection always takes the geometric
fallback (the `except AttributeError` branch at pptx_service.py 498–500). -/
def fitTextUnavailable : FitTextOracle := fun _ => none

/-- The estimator's content box (`contentBoxProps`) realised as a generated
text box: the same 6,000,000 × 3,500,000 EMU geometry and default margins,
the 24 pt font expressed in EMU (`24 * 914400 / 72 = 304800`), holding the
seven-word overflow content.  Its fallback metrics are `chars_per_line =
max(1, int(5817120 / (304800 * 0.6))) = 31`, under which the seven words
pack into 4 wrapped lines — while the capacity estimator's metrics for the
same geometry are `chars_per_line = 15`, `lines_available = 6`, under which
the same content wraps to 7 lines. -/
def estimatorGapBox : GenTextBox :=
  { content := overflowContent, widthEmu := 6000000, heightEmu := 3500000,
    fontSizeEmu := 304800 }

/-- Binder fixture: a source slide with two placeholder shapes. -/
def twoPlaceholderShapes : List SrcShape :=
  [{ isPlaceholder := true, original := lc "TitleOrig" },
   { isPlaceholder := true, original := lc "BodyOrig" }]

/-- The content dictionary `{item['idx']: item for item in contents}`:
the last entry with a given index wins. -/
def contentMapOf (items : List (ℕ × Str)) (i : ℕ) : Option Str :=
  items.foldl (fun acc it => if it.1 = i then some it.2 else acc) none

/-- A clone stub standing for `clone_slide_with_content`: it records the
spec's layout name. -/
def cloneStub : SlideSpec → LayoutT → Option (List (ℕ × Str)) :=
  fun spec _ => some [(0, spec.layoutName)]

/-- A slide spec naming a layout that was never extracted. -/
def slideUnknownLayout : SlideSpec :=
  { layoutName := lc "No Such Layout", phs := [{ idx := 0, content := lc "Hello" }] }

/-- A master shape whose first paragraph has no runs. -/
def runlessShape : MShape := { top := 0, hasTextFrame := true, paraRuns := some [] }

/-- Theme fonts as resolved by the earlier methods when both lookups
succeeded (neither name is the `'Calibri'` default). -/
def resolvedFonts : ThemeFonts :=
  { title := { name := lc "Georgia", size := 44 },
    body := { name := lc "Garamond", size := 18 } }

/-- A trivial slide used to exercise the continuation loop with a
non-raising builder. -/
def stubSlide : SlideSpec := { layoutName := lc "Body", phs := [] }

/-- A continuation-slide builder that always succeeds and consumes all the
remaining text. -/
def buildStub : Str → Except Str (SlideSpec × Str) := fun _ => .ok (stubSlide, [])

/-!
## Lemmas: words, trimming, wrapping
-/

lemma words_nil : words [] = [] := rfl

lemma wordsAux_ws_sep {c : Char} (hc : isWS c = true) (b : Str) :
    ∀ (a cur : Str), wordsAux (a ++ c :: b) cur = wordsAux a cur ++ words b := by
  intro a
  induction a with
  | nil =>
    intro cur
    by_cases hcur : cur = [] <;>
      simp [wordsAux, hc, hcur, words]
  | cons x a ih =>
    intro cur
    by_cases hx : isWS x
    · by_cases hcur : cur = [] <;>
        simp [wordsAux, hx, hcur, ih]
    · simp only [List.cons_append, wordsAux, Bool.not_eq_true] at hx ⊢
      rw [hx]
      simp only [Bool.false_eq_true, if_false]
      exact ih (x :: cur)

lemma words_append_ws {c : Char} (hc : isWS c = true) (a b : Str) :
    words (a ++ c :: b) = words a ++ words b :=
  wordsAux_ws_sep hc b a []

lemma words_cons_ws {c : Char} (hc : isWS c = true) (b : Str) :
    words (c :: b) = words b := by
  simpa [words_nil] using words_append_ws hc [] b

lemma words_all_ws : ∀ {t : Str}, (∀ x ∈ t, isWS x = true) → words t = [] := by
  intro t
  induction t with
  | nil => intro _; rfl
  | cons c t ih =>
    intro h
    rw [words_cons_ws (h c (by simp))]
    exact ih fun x hx => h x (List.mem_cons_of_mem _ hx)

lemma words_append_all_ws (a t : Str) (h : ∀ x ∈ t, isWS x = true) :
    words (a ++ t) = words a := by
  cases t with
  | nil => simp
  | cons c t =>
    rw [words_append_ws (h c (by simp)) a t,
      words_all_ws fun x hx => h x (List.mem_cons_of_mem _ hx)]
    simp

lemma words_prepend_all_ws (t a : Str) (h : ∀ x ∈ t, isWS x = true) :
    words (t ++ a) = words a := by
  induction t with
  | nil => simp
  | cons c t ih =>
    rw [List.cons_append, words_cons_ws (h c (by simp))]
    exact ih fun x hx => h x (List.mem_cons_of_mem _ hx)

lemma words_trimLeft (s : Str) : words (trimLeft s) = words s := by
  conv_rhs => rw [← List.takeWhile_append_dropWhile (p := isWS) (l := s)]
  rw [words_prepend_all_ws _ _ fun x hx => List.mem_takeWhile_imp hx]
  rfl

lemma words_trimRight (s : Str) : words (trimRight s) = words s := by
  conv_rhs =>
    rw [← List.reverse_reverse s,
      ← List.takeWhile_append_dropWhile (p := isWS) (l := s.reverse),
      List.reverse_append]
  rw [words_append_all_ws _ _ fun x hx =>
    List.mem_takeWhile_imp (List.mem_reverse.mp hx)]
  rfl

lemma words_trim (s : Str) : words (trim s) = words s := by
  rw [trim, words_trimLeft, words_trimRight]

lemma wordsAux_no_ws : ∀ (w cur : Str), (∀ x ∈ w, isWS x = false) →
    wordsAux w cur = if cur.reverse ++ w = [] then [] else [cur.reverse ++ w] := by
  intro w
  induction w with
  | nil =>
    intro cur _
    by_cases hcur : cur = [] <;> simp [wordsAux, hcur]
  | cons c w ih =>
    intro cur h
    have hc : isWS c = false := h c (by simp)
    show wordsAux (c :: w) cur = _
    rw [wordsAux, hc]
    simp only [Bool.false_eq_true, if_false]
    rw [ih (c :: cur) fun x hx => h x (List.mem_cons_of_mem _ hx)]
    have h1 : (c :: cur).reverse ++ w = cur.reverse ++ c :: w := by simp
    rw [h1]

lemma words_single (w : Str) (hne : w ≠ []) (h : ∀ x ∈ w, isWS x = false) :
    words w = [w] := by
  have := wordsAux_no_ws w [] h
  simpa [words, hne] using this

lemma wordsAux_mem : ∀ (s cur : Str), (∀ x ∈ cur, isWS x = false) →
    ∀ w ∈ wordsAux s cur, w ≠ [] ∧ ∀ x ∈ w, isWS x = false := by
  intro s
  induction s with
  | nil =>
    intro cur hcur w hw
    by_cases h : cur = []
    · simp [wordsAux, h] at hw
    · simp [wordsAux, h] at hw
      subst hw
      refine ⟨by simpa using h, fun x hx => hcur x (List.mem_reverse.mp hx)⟩
  | cons c s ih =>
    intro cur hcur w hw
    by_cases hc : isWS c
    · by_cases h : cur = []
      · rw [wordsAux, if_pos hc, if_pos h] at hw
        exact ih [] (by simp) w hw
      · rw [wordsAux, if_pos hc, if_neg h] at hw
        rcases List.mem_cons.mp hw with hw | hw
        · subst hw
          refine ⟨by simpa using h, fun x hx => hcur x (List.mem_reverse.mp hx)⟩
        · exact ih [] (by simp) w hw
    · rw [wordsAux, if_neg hc] at hw
      refine ih (c :: cur) ?_ w hw
      intro x hx
      rcases List.mem_cons.mp hx with hx | hx
      · subst hx; exact Bool.not_eq_true _ ▸ (by simpa using hc)
      · exact hcur x hx

lemma words_mem (s : Str) : ∀ w ∈ words s, w ≠ [] ∧ ∀ x ∈ w, isWS x = false :=
  wordsAux_mem s [] (by simp)

lemma words_joinSep_ws {c : Char} (hc : isWS c = true) :
    ∀ ls : List Str, words (joinSep [c] ls) = (ls.map words).flatten := by
  intro ls
  induction ls with
  | nil => simp [joinSep, words_nil]
  | cons x xs ih =>
    cases xs with
    | nil => simp [joinSep]
    | cons y ys =>
      show words (x ++ [c] ++ joinSep [c] (y :: ys)) = _
      rw [List.append_assoc, List.singleton_append, words_append_ws hc, ih]
      simp

lemma flatten_map_singleton {α : Type} (f : α → List α) :
    ∀ g : List α, (∀ x ∈ g, f x = [x]) → (g.map f).flatten = g := by
  intro g
  induction g with
  | nil => intro _; rfl
  | cons x xs ih =>
    intro h
    simp only [List.map_cons, List.flatten_cons, h x (by simp)]
    rw [ih fun y hy => h y (by simp [hy])]
    rfl

lemma wrapFill_flatten (width : ℕ) : ∀ (ws cur : List Str) (n : ℕ),
    (wrapFill width ws cur n).flatten = cur.reverse ++ ws := by
  intro ws
  induction ws with
  | nil =>
    intro cur n
    by_cases h : cur = [] <;> simp [wrapFill, h]
  | cons w ws ih =>
    intro cur n
    show (wrapFill width (w :: ws) cur n).flatten = _
    rw [wrapFill]
    by_cases h : cur = []
    · rw [if_pos h, ih]
      simp [h]
    · rw [if_neg h]
      by_cases hfit : n + 1 + w.length ≤ width
      · rw [if_pos hfit, ih]
        simp
      · rw [if_neg hfit]
        simp [ih]

lemma wrapStr_words (width : ℕ) (s : Str) :
    ((wrapStr width s).map words).flatten = words s := by
  unfold wrapStr
  rw [List.map_map]
  have hmem : ∀ g ∈ wrapFill width (words s) [] 0,
      (words ∘ joinSep [' ']) g = id g := by
    intro g hg
    show words (joinSep [' '] g) = g
    rw [words_joinSep_ws (by decide)]
    refine flatten_map_singleton words g ?_
    intro w hw
    have hw' : w ∈ (wrapFill width (words s) [] 0).flatten :=
      List.mem_flatten.mpr ⟨g, hg, hw⟩
    rw [wrapFill_flatten] at hw'
    simp only [List.reverse_nil, List.nil_append] at hw'
    obtain ⟨h1, h2⟩ := words_mem s w hw'
    exact words_single w h1 h2
  rw [List.map_congr_left hmem, List.map_id, wrapFill_flatten]
  simp

lemma wrapStr_eq_nil_iff (width : ℕ) (s : Str) :
    wrapStr width s = [] ↔ words s = [] := by
  constructor
  · intro h
    have h2 := wrapFill_flatten width (words s) [] 0
    have h3 : wrapFill width (words s) [] 0 = [] := by
      by_contra hne
      rcases List.exists_cons_of_ne_nil hne with ⟨g, gs, hgs⟩
      unfold wrapStr at h
      rw [hgs] at h
      simp at h
    rw [h3] at h2
    simpa using h2.symm
  · intro h
    unfold wrapStr
    rw [h]
    rfl

lemma splitChar_ne_nil (sep : Char) : ∀ s : Str, splitChar sep s ≠ [] := by
  intro s
  cases s with
  | nil => simp [splitChar]
  | cons c rest =>
    rw [splitChar]
    by_cases h : c = sep
    · simp [h]
    · rw [if_neg h]
      cases splitChar sep rest <;> simp

lemma joinSep_splitChar (sep : Char) : ∀ s : Str, joinSep [sep] (splitChar sep s) = s := by
  intro s
  induction s with
  | nil => rfl
  | cons c rest ih =>
    rw [splitChar]
    by_cases h : c = sep
    · rw [if_pos h]
      rcases hr : splitChar sep rest with _ | ⟨l, ls⟩
      · exact absurd hr (splitChar_ne_nil sep rest)
      · rw [hr] at ih
        show [] ++ [sep] ++ joinSep [sep] (l :: ls) = c :: rest
        rw [ih]
        simp [h]
    · rw [if_neg h]
      rcases hr : splitChar sep rest with _ | ⟨l, ls⟩
      · exact absurd hr (splitChar_ne_nil sep rest)
      · rw [hr] at ih
        cases ls with
        | nil =>
          show c :: l = c :: rest
          simpa [joinSep] using congrArg (c :: ·) ih
        | cons z zs =>
          show (c :: l) ++ [sep] ++ joinSep [sep] (z :: zs) = c :: rest
          conv_rhs => rw [← ih]
          rfl

lemma trim_marker_space {x : Char} (hx : isWS x = false) : trim [x, ' '] = [x] := by
  simp [trim, trimRight, trimLeft, List.dropWhile, hx]

lemma isBulletLine_destruct {s : Str} (h : isBulletLine s = true) :
    ∃ b t, s = b :: ' ' :: t ∧ isWS b = false := by
  match s, h with
  | b :: sp :: t, h =>
    simp only [isBulletLine, Bool.and_eq_true, Bool.or_eq_true, decide_eq_true_eq] at h
    obtain ⟨hb, hsp⟩ := h
    refine ⟨b, t, by rw [hsp], ?_⟩
    rcases hb with (h | h) | h <;> subst h <;> rfl

lemma words_marker {b : Char} (hb : isWS b = false) (t : Str) :
    words (b :: ' ' :: t) = [b] :: words t := by
  have h := words_append_ws (c := ' ') (by decide) [b] t
  simp only [List.singleton_append] at h
  rw [h, words_single [b] (by simp) ?_]
  · rfl
  · intro x hx
    simp only [List.mem_singleton] at hx
    subst hx
    exact hb

lemma processRaw_words (cpl : ℤ) (raw : Str) :
    ((processRaw cpl raw).map words).flatten = words raw := by
  have hraw : words raw = words (trimLeft (trimRight raw)) := by
    rw [words_trimLeft, words_trimRight]
  simp only [processRaw]
  by_cases hblank : trim (trimRight raw) = []
  · rw [if_pos hblank]
    have h0 : words raw = [] := by
      rw [← words_trimRight raw, ← words_trim (trimRight raw), hblank]
      exact words_nil
    rw [h0]
    rfl
  · rw [if_neg hblank]
    by_cases hbul : isBulletLine (trimLeft (trimRight raw)) = true
    · rw [if_pos hbul]
      obtain ⟨b, t, hd, hbws⟩ := isBulletLine_destruct hbul
      rw [hd]
      have htake : List.take 2 (b :: ' ' :: t) = [b, ' '] := rfl
      have hdrop : List.drop 2 (b :: ' ' :: t) = t := rfl
      rw [htake, hdrop]
      rcases hw : wrapStr (8 ⊔ (cpl - 2)).toNat (trim t) with _ | ⟨w0, restW⟩
      · show (List.map words [trim [b, ' ']]).flatten = words raw
        have ht : words t = [] := by
          rw [← words_trim t]
          exact (wrapStr_eq_nil_iff _ _).mp hw
        rw [trim_marker_space hbws, hraw, hd, words_marker hbws, ht]
        simp [words_single [b] (by simp) fun x hx => by
          simp only [List.mem_singleton] at hx; subst hx; exact hbws]
      · show (List.map words (([b, ' '] ++ w0) :: List.map (fun l => ' ' :: ' ' :: l) restW)).flatten
            = words raw
        have hbw0 : [b, ' '] ++ w0 = b :: ' ' :: w0 := rfl
        rw [hbw0, hraw, hd, words_marker hbws]
        simp only [List.map_cons, List.flatten_cons, words_marker hbws, List.map_map]
        have hmap : List.map (words ∘ fun l => ' ' :: ' ' :: l) restW = List.map words restW := by
          refine List.map_congr_left fun l _ => ?_
          show words (' ' :: ' ' :: l) = words l
          rw [words_cons_ws (by decide), words_cons_ws (by decide)]
        rw [hmap]
        have hws := wrapStr_words (8 ⊔ (cpl - 2)).toNat (trim t)
        rw [hw] at hws
        simp only [List.map_cons, List.flatten_cons] at hws
        rw [List.cons_append, hws, words_trim]
    · rw [if_neg hbul]
      rcases hw : wrapStr (8 ⊔ cpl).toNat (trimLeft (trimRight raw)) with _ | ⟨w0, restW⟩
      · show (List.map words [trimLeft (trimRight raw)]).flatten = words raw
        rw [hraw]
        simp
      · show (List.map words (w0 :: restW)).flatten = words raw
        have hws := wrapStr_words (8 ⊔ cpl).toNat (trimLeft (trimRight raw))
        rw [hw] at hws
        rw [hraw]
        exact hws

lemma words_splitLines_flatten (s : Str) :
    ((splitLines s).map words).flatten = words s := by
  conv_rhs => rw [← joinSep_splitChar '\n' s]
  rw [words_joinSep_ws (by decide)]
  rfl

lemma wrapTextIntoLines_words (text : Str) (cpl : ℤ) :
    ((wrapTextIntoLines text cpl).map words).flatten = words text := by
  simp only [wrapTextIntoLines]
  by_cases h : trim text = []
  · rw [if_pos h, ← words_trim text, h]
    rfl
  · rw [if_neg h]
    have key : ∀ Ls : List Str,
        (((Ls.map (processRaw cpl)).flatten).map words).flatten = (Ls.map words).flatten := by
      intro Ls
      induction Ls with
      | nil => rfl
      | cons p ps ih =>
        simp only [List.map_cons, List.flatten_cons, List.map_append, List.flatten_append]
        rw [processRaw_words, ih]
    rw [key, words_splitLines_flatten, words_trim]

/-!
## Lemmas: evaluation of the fixtures
-/

lemma pyInt_mono_of_nonneg {a b : ℚ} (h0 : 0 ≤ a) (h : a ≤ b) :
    pyInt a ≤ pyInt b := by
  unfold pyInt
  rw [if_pos h0, if_pos (h0.trans h)]
  exact Int.floor_le_floor h

lemma pyInt_zero : pyInt 0 = 0 := by
  unfold pyInt
  rw [if_pos le_rfl]
  exact Int.floor_zero

lemma usableWidthPt_nonneg (p : TextboxProps) : 0 ≤ usableWidthPt p := by
  unfold usableWidthPt
  have h : (0:ℤ) ≤ usableWidthEmu p := le_max_left _ _
  have h' : (0:ℚ) ≤ (usableWidthEmu p : ℚ) := by exact_mod_cast h
  have := div_nonneg h' (by norm_num : (0:ℚ) ≤ 914400)
  exact mul_nonneg this (by norm_num)

lemma usableHeightPt_nonneg (p : TextboxProps) : 0 ≤ usableHeightPt p := by
  unfold usableHeightPt
  have h : (0:ℤ) ≤ usableHeightEmu p := le_max_left _ _
  have h' : (0:ℚ) ≤ (usableHeightEmu p : ℚ) := by exact_mod_cast h
  have := div_nonneg h' (by norm_num : (0:ℚ) ≤ 914400)
  exact mul_nonneg this (by norm_num)

lemma charsPerLine_of_nonpos_width (p : TextboxProps)
    (h : p.width - p.marginLeft - p.marginRight ≤ 0) : charsPerLine p = 5 := by
  have hw : usableWidthEmu p = 0 := by
    unfold usableWidthEmu; omega
  have hpt : usableWidthPt p = 0 := by
    unfold usableWidthPt; rw [hw]; norm_num
  unfold charsPerLine
  split
  · rw [hpt, zero_div, pyInt_zero]
    exact max_eq_left (by norm_num)
  · rfl

lemma linesAvailable_of_nonpos_height (p : TextboxProps)
    (h : p.height - p.marginTop - p.marginBottom ≤ 0) : linesAvailable p = 1 := by
  have hw : usableHeightEmu p = 0 := by
    unfold usableHeightEmu; omega
  have hpt : usableHeightPt p = 0 := by
    unfold usableHeightPt; rw [hw]; norm_num
  unfold linesAvailable
  split
  · rw [hpt, zero_div, pyInt_zero]
    exact max_eq_left (by norm_num)
  · rfl

lemma charsPerLine_pos (p : TextboxProps) : 0 < charsPerLine p := by
  unfold charsPerLine
  split
  · exact lt_of_lt_of_le (by norm_num) (le_max_left _ _)
  · norm_num

lemma linesAvailable_pos (p : TextboxProps) : 0 < linesAvailable p := by
  unfold linesAvailable
  split
  · exact lt_of_lt_of_le (by norm_num) (le_max_left _ _)
  · norm_num

/-- C4 counterexample: with `width = 0` (and the code's default margins, an
18 pt font and default line spacing) `_textbox_metrics_from_props` returns
`chars_per_line = 5`, not the `0` the claim requires. -/
theorem estimate_zero_width_cpl_is_five_not_zero :
    charsPerLine zeroWidthProps = 5 ∧ charsPerLine zeroWidthProps ≠ 0 := by
  have h5 : charsPerLine zeroWidthProps = 5 :=
    charsPerLine_of_nonpos_width zeroWidthProps (by decide)
  exact ⟨h5, by rw [h5]; decide⟩

/-- C4 amended: zero or negative usable width yields the clamped minimum
`chars_per_line = 5` (never a negative value, and the division is guarded so
it never divides by zero); likewise zero or negative usable height yields
`lines_available = 1`; both outputs are always strictly positive. -/
theorem capacity_zero_geometry_clamped (p : TextboxProps) :
    (p.width - p.marginLeft - p.marginRight ≤ 0 → charsPerLine p = 5) ∧
    (p.height - p.marginTop - p.marginBottom ≤ 0 → linesAvailable p = 1) ∧
    0 < charsPerLine p ∧ 0 < linesAvailable p :=
  ⟨charsPerLine_of_nonpos_width p, linesAvailable_of_nonpos_height p,
   charsPerLine_pos p, linesAvailable_pos p⟩

/-- Witness for `capacity_zero_geometry_clamped` at the concrete zero-width box. -/
theorem capacity_zero_geometry_clamped_witness :
    charsPerLine zeroWidthProps = 5 ∧ 0 < linesAvailable zeroWidthProps :=
  ⟨(capacity_zero_geometry_clamped zeroWidthProps).1 (by decide),
   (capacity_zero_geometry_clamped zeroWidthProps).2.2.2⟩

/-- C7: for fixed font size, margins and line spacing, `chars_per_line` is
non-decreasing in the box width and `lines_available` is non-decreasing in
the box height. -/
theorem capacity_monotone (p : TextboxProps) (w h : ℤ) :
    (p.width ≤ w → charsPerLine p ≤ charsPerLine { p with width := w }) ∧
    (p.height ≤ h → linesAvailable p ≤ linesAvailable { p with height := h }) := by
  constructor
  · intro hw
    have hemu : usableWidthEmu p ≤ usableWidthEmu { p with width := w } := by
      unfold usableWidthEmu
      dsimp only
      exact max_le_max le_rfl (by omega)
    have hpt : usableWidthPt p ≤ usableWidthPt { p with width := w } := by
      unfold usableWidthPt
      have hc : (usableWidthEmu p : ℚ) ≤ (usableWidthEmu { p with width := w } : ℚ) := by
        exact_mod_cast hemu
      have hd := div_le_div_of_nonneg_right hc (by norm_num : (0:ℚ) ≤ 914400)
      exact mul_le_mul_of_nonneg_right hd (by norm_num)
    unfold charsPerLine
    have hcw : charWidthPt { p with width := w } = charWidthPt p := rfl
    rw [hcw]
    split
    · rename_i hpos
      refine max_le_max le_rfl (pyInt_mono_of_nonneg ?_ ?_)
      · exact div_nonneg (usableWidthPt_nonneg p) hpos.le
      · exact div_le_div_of_nonneg_right hpt hpos.le
    · exact le_rfl
  · intro hh
    have hemu : usableHeightEmu p ≤ usableHeightEmu { p with height := h } := by
      unfold usableHeightEmu
      dsimp only
      exact max_le_max le_rfl (by omega)
    have hpt : usableHeightPt p ≤ usableHeightPt { p with height := h } := by
      unfold usableHeightPt
      have hc : (usableHeightEmu p : ℚ) ≤ (usableHeightEmu { p with height := h } : ℚ) := by
        exact_mod_cast hemu
      have hd := div_le_div_of_nonneg_right hc (by norm_num : (0:ℚ) ≤ 914400)
      exact mul_le_mul_of_nonneg_right hd (by norm_num)
    unfold linesAvailable
    have hlh : lineHeightPt { p with height := h } = lineHeightPt p := rfl
    rw [hlh]
    split
    · rename_i hpos
      refine max_le_max le_rfl (pyInt_mono_of_nonneg ?_ ?_)
      · exact div_nonneg (usableHeightPt_nonneg p) hpos.le
      · exact div_le_div_of_nonneg_right hpt hpos.le
    · exact le_rfl

/-- Witness for `capacity_monotone`: widening the zero-width box to one inch
does not decrease `chars_per_line`, and heightening it does not decrease
`lines_available`. -/
theorem capacity_monotone_witness :
    charsPerLine zeroWidthProps ≤ charsPerLine { zeroWidthProps with width := 914400 } ∧
    linesAvailable zeroWidthProps ≤ linesAvailable { zeroWidthProps with height := 1828800 } :=
  ⟨(capacity_monotone zeroWidthProps 914400 1828800).1 (by decide),
   (capacity_monotone zeroWidthProps 914400 1828800).2 (by decide)⟩

lemma charsPerLine_contentBox : charsPerLine contentBoxProps = 15 := by
  unfold charsPerLine pyInt charWidthPt usableWidthPt usableWidthEmu contentBoxProps
  norm_num [max_def]

lemma linesAvailable_contentBox : linesAvailable contentBoxProps = 6 := by
  unfold linesAvailable pyInt lineHeightPt usableHeightPt usableHeightEmu contentBoxProps
  norm_num [max_def]

lemma splitProps_contentBox (t : Str) :
    splitTextToFitBoxProps t contentBoxProps = splitTextToFitBox t 15 6 := by
  unfold splitTextToFitBoxProps
  rw [charsPerLine_contentBox, linesAvailable_contentBox]
  rfl

lemma capacityChars_contentBox : capacityChars contentBoxProps = 90 := by
  unfold capacityChars totalChars
  rw [charsPerLine_contentBox, linesAvailable_contentBox]
  decide

lemma isTitleBox_lpContent : isTitleBox lpContent = false := by
  show (decide ((32:ℚ) < 24) ||
    (decide (capacityChars contentBoxProps < 150) && decide ((24:ℚ) < 24))) = false
  rw [capacityChars_contentBox]
  decide

lemma buildContSlide_errors (contTitle remaining : Str) :
    buildContSlide layoutBody contTitle remaining = .error attrErrMsg := by
  show (do
    let titlePhs ← match [lpContent].find? isTitleBox with
      | some lp => do
          let _ ← getPlaceholderFontSize lp
          pure [({ idx := lp.idx, content := contTitle } : SlidePh)]
      | none => pure ([] : List SlidePh)
    let contContentLps := [lpContent].filter (fun lp => !isTitleBox lp)
    let _ ← contContentLps.mapM getPlaceholderFontSize
    let st := fillContentBoxes contContentLps remaining
    pure (({ layoutName := layoutBody.name, phs := titlePhs ++ st.1 } : SlideSpec), st.2) :
      Except Str (SlideSpec × Str)) = .error attrErrMsg
  rw [List.find?, isTitleBox_lpContent]
  show (do
    let contContentLps := [lpContent].filter (fun lp => !isTitleBox lp)
    let _ ← contContentLps.mapM getPlaceholderFontSize
    let st := fillContentBoxes contContentLps remaining
    pure (({ layoutName := layoutBody.name, phs := [] ++ st.1 } : SlideSpec), st.2) :
      Except Str (SlideSpec × Str)) = .error attrErrMsg
  rw [List.filter, isTitleBox_lpContent]
  rfl

/-- C10: the capacity figures exposed to the content planner by
`_estimate_text_capacity` are clamped: characters to `[20, 5000]`, words to
`[5, 1000]`, for every geometry/font input — even one admitting no text. -/
theorem capacity_estimate_clamped (p : TextboxProps) :
    20 ≤ capacityChars p ∧ capacityChars p ≤ 5000 ∧
    5 ≤ capacityWords p ∧ capacityWords p ≤ 1000 := by
  refine ⟨le_max_left _ _, ?_, le_max_left _ _, ?_⟩
  · exact max_le (by norm_num) (min_le_right _ _)
  · exact max_le (by norm_num) (min_le_right _ _)

lemma lpContent_props : lpContent.props = contentBoxProps := rfl

lemma layoutBody_name : layoutBody.name = lc "Body" := rfl

lemma layoutBody_textPhs : layoutBody.textPhs = [lpContent] := rfl

set_option maxRecDepth 4000 in
lemma trim_overflow_content : trim overflowContent = overflowContent := by decide

lemma trim_overflow_rem : trim (lc "GGGGGGGGGGGG") = lc "GGGGGGGGGGGG" := by decide

set_option maxRecDepth 8000 in
lemma split_overflow_eval :
    splitTextToFitBox overflowContent 15 6 = (lc "AAAAAAAAAAAA\nBBBBBBBBBBBB\nCCCCCCCCCCCC\nDDDDDDDDDDDD\nEEEEEEEEEEEE\nFFFFFFFFFFFF", lc "GGGGGGGGGGGG") := by
  decide

set_option maxRecDepth 8000 in
lemma enforceSlide_overflow :
    enforceSlide (layoutMapOf [layoutBody]) layoutBody slideOverflow = .error attrErrMsg := by
  simp +decide [enforceSlide, layoutMapOf, List.foldl_cons, List.foldl_nil,
    slideOverflow, layoutBody_name, layoutBody_textPhs,
    List.find?_cons, List.find?_nil, List.filter_cons, List.filter_nil,
    isTitleBox_lpContent, lpContent_props, splitProps_contentBox, split_overflow_eval,
    trim_overflow_content, trim_overflow_rem,
    splitContentBoxes, findPhLast, setPhContent, List.map_cons, List.map_nil,
    contLoopN, contLoopWith, buildContSlide_errors, joinSep]
  rfl

set_option maxRecDepth 8000 in
lemma trim_long_content : trim longContent = longContent := by decide

set_option maxRecDepth 8000 in
lemma trim_long_rem :
    trim (lc "NNNNNNNNNNNN\nOOOOOOOOOOOO") = lc "NNNNNNNNNNNN\nOOOOOOOOOOOO" := by decide

set_option maxRecDepth 8000 in
lemma split_long_eval :
    splitTextToFitBox longContent 15 6 =
      (lc "HHHHHHHHHHHH\nIIIIIIIIIIII\nJJJJJJJJJJJJ\nKKKKKKKKKKKK\nLLLLLLLLLLLL\nMMMMMMMMMMMM", lc "NNNNNNNNNNNN\nOOOOOOOOOOOO") := by
  decide

set_option maxRecDepth 8000 in
lemma enforceSlide_long :
    enforceSlide (layoutMapOf [layoutBody]) layoutBody slideLong = .error attrErrMsg := by
  simp +decide [enforceSlide, layoutMapOf, List.foldl_cons, List.foldl_nil,
    slideLong, layoutBody_name, layoutBody_textPhs,
    List.find?_cons, List.find?_nil, List.filter_cons, List.filter_nil,
    isTitleBox_lpContent, lpContent_props, splitProps_contentBox, split_long_eval,
    trim_long_content, trim_long_rem,
    splitContentBoxes, findPhLast, setPhContent, List.map_cons, List.map_nil,
    contLoopN, contLoopWith, buildContSlide_errors, joinSep]
  rfl

lemma enforce_overflow_errors :
    enforceZeroOverflowBySplitting [slideOverflow] [layoutBody] (some layoutBody) =
      .error attrErrMsg := by
  simp [enforceZeroOverflowBySplitting, List.mapM.loop, enforceSlide_overflow]

lemma enforce_long_errors :
    enforceZeroOverflowBySplitting [slideLong] [layoutBody] (some layoutBody) =
      .error attrErrMsg := by
  simp [enforceZeroOverflowBySplitting, List.mapM.loop, enforceSlide_long]

lemma contLoopWith_length (build : Str → Except Str (SlideSpec × Str)) :
    ∀ (fuel : ℕ) (rem : Str) (out : List SlideSpec),
      contLoopWith build fuel rem = .ok out → out.length ≤ fuel := by
  intro fuel
  induction fuel with
  | zero =>
    intro rem out h
    have h0 : (Except.ok [] : Except Str (List SlideSpec)) = .ok out := h
    cases h0
    simp
  | succ fuel ih =>
    intro rem out h
    rw [contLoopWith] at h
    by_cases hrem : rem = []
    · rw [if_pos hrem] at h
      have h0 : (Except.ok [] : Except Str (List SlideSpec)) = .ok out := h
      cases h0
      simp
    · rw [if_neg hrem] at h
      rcases hbuild : build rem with e | p
      · rw [hbuild] at h
        simp [Bind.bind, Except.bind] at h
      · rw [hbuild] at h
        obtain ⟨slide, rem2⟩ := p
        simp only [Bind.bind, Except.bind] at h
        rcases hloop : contLoopWith build fuel rem2 with e2 | rest
        · rw [hloop] at h
          simp at h
        · rw [hloop] at h
          simp only [pure, Except.pure] at h
          cases h
          exact Nat.succ_le_succ (ih rem2 rest hloop)

lemma validateNoOverflow_eq_zero_iff (ft : FitTextOracle) (deck : List (List GenTextBox)) :
    validateNoOverflow ft deck = 0 ↔
      ∀ sl ∈ deck, ∀ b ∈ sl, trim b.content ≠ [] → detectTextOverflow ft b = false := by
  unfold validateNoOverflow
  rw [List.sum_eq_zero_iff]
  constructor
  · intro h sl hsl b hb hne
    have h0 := h _ (List.mem_map_of_mem _ hsl)
    rw [List.length_eq_zero] at h0
    cases hD : detectTextOverflow ft b with
    | false => rfl
    | true =>
      have hmem : b ∈ sl.filter fun x => decide (trim x.content ≠ []) && detectTextOverflow ft x :=
        List.mem_filter.mpr ⟨hb, by simp [hne, hD]⟩
      rw [h0] at hmem
      exact absurd hmem (List.not_mem_nil b)
  · intro h x hx
    rcases List.mem_map.mp hx with ⟨sl, hsl, rfl⟩
    rw [List.length_eq_zero, List.filter_eq_nil_iff]
    intro b hb
    simp only [Bool.and_eq_true, decide_eq_true_eq, not_and]
    intro hne
    rw [h sl hsl b hb hne]
    simp

lemma fallbackCpl_fitting : fallbackCpl 1645920 228600 = 12 := by
  unfold fallbackCpl pyInt
  rw [if_pos (by norm_num)]
  norm_num

lemma countWrapped_fitting : countWrappedLines (lc "Hi") 1645920 228600 = 1 := by
  simp only [countWrappedLines, fallbackCpl_fitting]
  decide

lemma detect_fitting : detectTextOverflowFallback fittingBox = false := by
  have hcount : countWrappedLines fittingBox.content (usableWidthOf fittingBox)
      fittingBox.fontSizeEmu = 1 := by
    show countWrappedLines (lc "Hi") (usableWidthOf fittingBox) 228600 = 1
    have huw : usableWidthOf fittingBox = 1645920 := by decide
    rw [huw]
    exact countWrapped_fitting
  simp only [detectTextOverflowFallback, hcount]
  have huh : usableHeightOf fittingBox = 822960 := by decide
  have hfs : fittingBox.fontSizeEmu = 228600 := rfl
  rw [huh, hfs]
  refine decide_eq_false ?_
  push_cast
  norm_num

lemma generateDeckFinal_eq (ft : FitTextOracle) (deck : List (List GenTextBox)) :
    generateDeckFinal ft deck =
      if 0 < validateNoOverflow ft (enforceTextFit ft deck) then
        .error (lc "CRITICAL: text boxes still overflow after enforcement! Generation failed.")
      else .ok (enforceTextFit ft deck) := rfl

lemma generateDeckFinal_ok_validate (ft : FitTextOracle) (deck out : List (List GenTextBox))
    (h : generateDeckFinal ft deck = .ok out) : validateNoOverflow ft out = 0 := by
  rw [generateDeckFinal_eq] at h
  by_cases hv : 0 < validateNoOverflow ft (enforceTextFit ft deck)
  · rw [if_pos hv] at h
    exact absurd h (by simp)
  · rw [if_neg hv] at h
    have h0 : (Except.ok (enforceTextFit ft deck) : Except Str _) = .ok out := h
    cases h0
    omega

lemma detectTO_fitting : detectTextOverflow fitTextUnavailable fittingBox = false := by
  show detectTextOverflowFallback fittingBox = false
  exact detect_fitting

lemma enforceBox_fitting : enforceBox fitTextUnavailable fittingBox = fittingBox := by
  unfold enforceBox
  rw [if_neg (by decide : ¬ trim fittingBox.content = []), detectTO_fitting]
  simp

lemma generateDeck_fitting :
    generateDeckFinal fitTextUnavailable [[fittingBox]] = .ok [[fittingBox]] := by
  have hfit : enforceTextFit fitTextUnavailable [[fittingBox]] = [[fittingBox]] := by
    simp [enforceTextFit, enforceBox_fitting]
  have hval : validateNoOverflow fitTextUnavailable [[fittingBox]] = 0 := by
    simp [validateNoOverflow, detectTO_fitting]
  rw [generateDeckFinal_eq, hfit, hval]
  rfl

lemma fallbackCpl_gap : fallbackCpl 5817120 304800 = 31 := by
  unfold fallbackCpl pyInt
  rw [if_pos (by norm_num)]
  norm_num

set_option maxRecDepth 4000 in
lemma countWrapped_gap : countWrappedLines overflowContent 5817120 304800 = 4 := by
  simp only [countWrappedLines, fallbackCpl_gap]
  decide

lemma detect_gap : detectTextOverflowFallback estimatorGapBox = false := by
  have hcount : countWrappedLines estimatorGapBox.content (usableWidthOf estimatorGapBox)
      estimatorGapBox.fontSizeEmu = 4 := by
    show countWrappedLines overflowContent (usableWidthOf estimatorGapBox) 304800 = 4
    have huw : usableWidthOf estimatorGapBox = 5817120 := by decide
    rw [huw]
    exact countWrapped_gap
  simp only [detectTextOverflowFallback, hcount]
  have huh : usableHeightOf estimatorGapBox = 3408560 := by decide
  have hfs : estimatorGapBox.fontSizeEmu = 304800 := rfl
  rw [huh, hfs]
  refine decide_eq_false ?_
  push_cast
  norm_num

lemma detectTO_gap : detectTextOverflow fitTextUnavailable estimatorGapBox = false := by
  show detectTextOverflowFallback estimatorGapBox = false
  exact detect_gap

set_option maxRecDepth 4000 in
lemma trim_gap_ne : ¬ trim estimatorGapBox.content = [] := by decide

lemma enforceBox_gap : enforceBox fitTextUnavailable estimatorGapBox = estimatorGapBox := by
  unfold enforceBox
  rw [if_neg trim_gap_ne, detectTO_gap]
  simp

lemma generateDeck_gap :
    generateDeckFinal fitTextUnavailable [[estimatorGapBox]] = .ok [[estimatorGapBox]] := by
  have hfit : enforceTextFit fitTextUnavailable [[estimatorGapBox]] = [[estimatorGapBox]] := by
    simp [enforceTextFit, enforceBox_gap]
  have hval : validateNoOverflow fitTextUnavailable [[estimatorGapBox]] = 0 := by
    simp [validateNoOverflow, detectTO_gap]
  rw [generateDeckFinal_eq, hfit, hval]
  rfl

set_option maxRecDepth 4000 in
lemma wrapLines_overflow_at_15 : (wrapTextIntoLines overflowContent 15).length = 7 := by
  decide

/-!
## Claim theorems
-/

/-- C1 counterexample: with the `fit_text` attempt raising `AttributeError`
(the code's explicit fallback branch), the one-slide deck holding the
estimator's 6,000,000 × 3,500,000 EMU, 24 pt content box (`estimatorGapBox`,
the geometry of `contentBoxProps`) with its seven-word, 90-character content
passes the final safety net and validation untouched, so `generate_deck`
returns successfully with zero violations — yet the box's content,
word-wrapped at that box's estimated `chars_per_line = 15`, occupies 7
lines, exceeding the estimated `lines_available = 6`.  Validation measures
with `_detect_text_overflow` (here its geometric fallback, character width
`0.6 * font`, giving 31 characters per line and 4 wrapped lines), not with
the capacity estimator's metrics (character width `1.2 * font`), so a
successful return does not imply the claimed estimator-metric fit. -/
theorem generate_deck_estimator_fit_counterexample :
    generateDeckFinal fitTextUnavailable [[estimatorGapBox]] = .ok [[estimatorGapBox]] ∧
    validateNoOverflow fitTextUnavailable [[estimatorGapBox]] = 0 ∧
    charsPerLine contentBoxProps = 15 ∧
    linesAvailable contentBoxProps = 6 ∧
    linesAvailable contentBoxProps <
      ((wrapTextIntoLines estimatorGapBox.content (charsPerLine contentBoxProps)).length : ℤ) := by
  refine ⟨generateDeck_gap, ?_, charsPerLine_contentBox, linesAvailable_contentBox, ?_⟩
  · exact generateDeckFinal_ok_validate fitTextUnavailable [[estimatorGapBox]]
      [[estimatorGapBox]] generateDeck_gap
  · rw [charsPerLine_contentBox, linesAvailable_contentBox]
    show (6 : ℤ) < ((wrapTextIntoLines overflowContent 15).length : ℤ)
    rw [wrapLines_overflow_at_15]
    norm_num

/-- C1 amended: for every behaviour of the python-pptx `fit_text` attempt, a
call to `generate_deck` that returns successfully implies the final
validation pass (`_validate_no_overflow`) found zero overflow violations:
every text box of the returned deck with non-empty stripped content passes
the program's own overflow detection `_detect_text_overflow` — the
`fit_text` verdict when that attempt completes, the geometric fallback
measurement when it raises. -/
theorem generate_deck_zero_violations (ft : FitTextOracle)
    (deck out : List (List GenTextBox))
    (h : generateDeckFinal ft deck = .ok out) :
    validateNoOverflow ft out = 0 ∧
    ∀ sl ∈ out, ∀ b ∈ sl, trim b.content ≠ [] → detectTextOverflow ft b = false := by
  have hz := generateDeckFinal_ok_validate ft deck out h
  exact ⟨hz, (validateNoOverflow_eq_zero_iff ft out).mp hz⟩

/-- Witness for `generate_deck_zero_violations` on a one-slide, one-box deck
whose text fits, with `fit_text` unavailable. -/
theorem generate_deck_zero_violations_witness :
    generateDeckFinal fitTextUnavailable [[fittingBox]] = .ok [[fittingBox]] ∧
      validateNoOverflow fitTextUnavailable [[fittingBox]] = 0 :=
  ⟨generateDeck_fitting,
   (generate_deck_zero_violations fitTextUnavailable [[fittingBox]] [[fittingBox]]
      generateDeck_fitting).1⟩

/-- C2 counterexample: for a content box holding `"aaaa bbbb cccc"` with
metrics `chars_per_line = 5`, `lines_available = 1`, (a) running
`_enforce_zero_overflow_by_splitting` raises (the continuation-slide
builder calls the undefined `_get_placeholder_font_size`), so the
overflowing remainder is never moved onto any continuation slide; and
(b) the split itself normalises whitespace — the fitting prefix joins the
first six words with newlines instead of the original spaces, so no
concatenation of prefix and remainder (direct, space- or
newline-separated) reconstructs the original string exactly. -/
theorem split_reconstruction_counterexample :
    enforceZeroOverflowBySplitting [slideOverflow] [layoutBody] (some layoutBody) =
        .error attrErrMsg ∧
    splitTextToFitBoxProps overflowContent contentBoxProps =
      (lc "AAAAAAAAAAAA\nBBBBBBBBBBBB\nCCCCCCCCCCCC\nDDDDDDDDDDDD\nEEEEEEEEEEEE\nFFFFFFFFFFFF", lc "GGGGGGGGGGGG") ∧
    ((splitTextToFitBoxProps overflowContent contentBoxProps).1 ++
        (splitTextToFitBoxProps overflowContent contentBoxProps).2 ≠ overflowContent ∧
     (splitTextToFitBoxProps overflowContent contentBoxProps).1 ++ lc " " ++
        (splitTextToFitBoxProps overflowContent contentBoxProps).2 ≠ overflowContent ∧
     (splitTextToFitBoxProps overflowContent contentBoxProps).1 ++ lc "\n" ++
        (splitTextToFitBoxProps overflowContent contentBoxProps).2 ≠ overflowContent) := by
  have hs : splitTextToFitBoxProps overflowContent contentBoxProps =
      (lc "AAAAAAAAAAAA\nBBBBBBBBBBBB\nCCCCCCCCCCCC\nDDDDDDDDDDDD\nEEEEEEEEEEEE\nFFFFFFFFFFFF", lc "GGGGGGGGGGGG") := by
    rw [splitProps_contentBox]
    exact split_overflow_eval
  refine ⟨enforce_overflow_errors, hs, ?_, ?_, ?_⟩ <;> rw [hs] <;> decide

/-- C2 amended: the split performed by `_split_text_to_fit_box` is lossless
at the level of whitespace-separated words — the word sequence of the
fitting part followed by that of the remainder is exactly the original
content's word sequence (for every content and every box metrics). The
original string itself is not reconstructed exactly: wrapping replaces the
whitespace at line breaks, and the continuation-slide builder as written
raises `AttributeError` before placing any remainder. -/
theorem split_lossless_words (text : Str) (props : TextboxProps) :
    words (splitTextToFitBoxProps text props).1 ++
      words (splitTextToFitBoxProps text props).2 = words text := by
  unfold splitTextToFitBoxProps splitTextToFitBox
  by_cases h : (wrapTextIntoLines text (charsPerLine props)).length ≤
      (linesAvailable props).toNat
  · rw [if_pos h]
    rw [words_trim]
    simp [words_nil]
  · rw [if_neg h]
    simp only
    rw [words_trim, words_trim, words_joinSep_ws (by decide), words_joinSep_ws (by decide)]
    rw [← List.flatten_append, ← List.map_append, List.take_append_drop]
    exact wrapTextIntoLines_words text (charsPerLine props)

/-- C3 counterexample: a layout with two placeholders and an assignment
list covering only index 0: the binder returns normally, filling index 0
and keeping the original template content at the omitted index 1 — no
`MissingPlaceholderAssignmentError` exists anywhere in the code, and no
code path raises for the missing index. -/
theorem binder_omitted_index_counterexample :
    copyAllShapes twoPlaceholderShapes (contentMapOf [(0, lc "New")]) 0 =
      [(0, lc "New"), (1, lc "BodyOrig")] := by
  decide

/-- C3 amended: the binder fills exactly those placeholder indices that
appear in the assignments; every omitted index silently keeps the
template's original content (with only a log line), and the walk never
raises. -/
theorem binder_fills_assigned_indices (shapes : List SrcShape)
    (m : ℕ → Option Str) (c : ℕ) :
    copyAllShapes shapes m c =
      (enumFrom c (placeholderOriginals shapes)).map fun p => (p.1, (m p.1).getD p.2) := by
  induction shapes generalizing c with
  | nil => rfl
  | cons sh rest ih =>
    by_cases h : sh.isPlaceholder
    · simp [copyAllShapes, placeholderOriginals, h, enumFrom, ih]
    · simp [copyAllShapes, placeholderOriginals, h, ih]

/-- C5: (a) the continuation loop, for every builder, every fuel bound and
every remaining text, appends at most `fuel` continuation slides (so at
most 12 as instantiated) and is a total function; (b) when the bound is
exhausted the loop returns successfully with no further slide and no
report, silently discarding whatever text remains; and (c) on an actual
overflowing slide the enforcement raises `AttributeError` (surfaced by the
caller's handler as a generic error) while building the first continuation
slide, because `_get_placeholder_font_size` is undefined — no
`OverflowBoundExceededError` exists anywhere in the code. -/
theorem continuation_loop_bounded_and_crashes :
    (∀ (build : Str → Except Str (SlideSpec × Str)) (fuel : ℕ) (rem : Str)
        (out : List SlideSpec),
        contLoopWith build fuel rem = .ok out → out.length ≤ fuel) ∧
    (∀ (build : Str → Except Str (SlideSpec × Str)) (rem : Str),
        contLoopWith build 0 rem = .ok []) ∧
    enforceZeroOverflowBySplitting [slideLong] [layoutBody] (some layoutBody) =
      .error attrErrMsg :=
  ⟨fun build => contLoopWith_length build, fun _ _ => rfl, enforce_long_errors⟩

/-- Witness for `continuation_loop_bounded_and_crashes`: a non-raising
builder that consumes everything yields one continuation slide, within the
bound of 12. -/
theorem continuation_loop_bounded_and_crashes_witness :
    contLoopWith buildStub 12 (lc "leftover") = .ok [stubSlide] ∧
      ([stubSlide] : List SlideSpec).length ≤ 12 ∧
      contLoopWith buildStub 0 (lc "leftover") = .ok [] :=
  ⟨rfl,
   continuation_loop_bounded_and_crashes.1 buildStub 12 (lc "leftover") [stubSlide] rfl,
   continuation_loop_bounded_and_crashes.2.1 buildStub (lc "leftover")⟩

/-- C6 counterexample: a deck request holding a spec with an unknown layout
name followed by a valid spec: generation completes, silently dropping the
unknown-layout spec and cloning the valid one — no error is raised for the
offending slide. -/
theorem unknown_layout_skipped_counterexample :
    generateDeckSlides (layoutMapOf [layoutBody]) cloneStub
      [slideUnknownLayout, slideOverflow] = [[(0, lc "Body")]] := by
  decide

/-- C6 amended: the deck loop processes exactly the specs whose
`layout_name` resolves in the layout map (and whose clone step succeeds);
a spec with an unknown layout name is skipped with only a console log, and
deck generation continues with the remaining specs. -/
theorem deck_loop_processes_known_layouts (lm : Str → Option LayoutT)
    (cf : SlideSpec → LayoutT → Option (List (ℕ × Str))) (specs : List SlideSpec) :
    generateDeckSlides lm cf specs =
      specs.filterMap fun sp => (lm sp.layoutName).bind (cf sp) := by
  induction specs with
  | nil => rfl
  | cons sp rest ih =>
    rw [generateDeckSlides]
    rcases hm : lm sp.layoutName with _ | lt
    · simp [List.filterMap_cons, hm, ih]
    · rcases hc : cf sp lt with _ | out
      · simp [List.filterMap_cons, hm, hc, ih]
      · simp [List.filterMap_cons, hm, hc, ih]

/-- C8 counterexample: a placeholder whose type string is `"BODY (2)"` and
whose name is `"Content Placeholder 1"` — no title or subtitle marker —
sitting at the top of the slide (`top = 0`) is classified as a title by the
position heuristic, so a body box high on the slide is mis-classified. -/
theorem body_box_high_classified_title :
    isLikelyTitle (lc "BODY (2)") (lc "Content Placeholder 1") 0 = true := by
  decide

/-- C8 amended: explicit title/subtitle markers (placeholder type first,
then shape name) take precedence, and the top-quartile position heuristic
is consulted only when no marker matched; since there is no negative
body marker, the classification is exactly `marker OR top-quartile`, so a
body-typed box in the top quartile is still classified as a title. -/
theorem title_markers_precede_position (phType shapeName : Str) (top : ℤ) :
    isLikelyTitle phType shapeName top =
      (hasTitleMarker phType shapeName || decide (top < 1285875)) := by
  unfold isLikelyTitle hasTitleMarker
  by_cases h1 : titleTypeMarker phType = true
  · simp [h1]
  · rw [Bool.not_eq_true] at h1
    by_cases h2 : titleNameMarker shapeName = true
    · simp [h1, h2]
    · rw [Bool.not_eq_true] at h2
      simp [h1, h2]

/-- C9 counterexample: extraction does mutate the loaded presentation —
with the theme fonts still at their `'Calibri'` defaults, probing a master
shape whose first paragraph has no runs adds a run with text `"X"`
(`para.add_run().text = "X"`, slide_layout_extractor.py line 594) that is
never removed: the shape list after `get_default_fonts_from_master`
differs from the input. -/
theorem extraction_mutates_master :
    (masterFontFallback defaultThemeFonts [runlessShape]).2 ≠ [runlessShape] := by
  decide

/-- C9 amended: the mutating probe runs only while a theme font is still
unresolved: when both the title and the body font names were already
resolved (neither is `'Calibri'`), the master-shape fallback is skipped and
the document is untouched. -/
theorem master_probe_skipped_when_fonts_resolved (fonts : ThemeFonts)
    (shapes : List MShape) (ht : fonts.title.name ≠ lc "Calibri")
    (hb : fonts.body.name ≠ lc "Calibri") :
    masterFontFallback fonts shapes = (fonts, shapes) := by
  unfold masterFontFallback
  rw [if_neg]
  rintro (h | h)
  · exact ht h
  · exact hb h

/-- Witness for `master_probe_skipped_when_fonts_resolved` at concrete
resolved fonts. -/
theorem master_probe_skipped_when_fonts_resolved_witness :
    masterFontFallback resolvedFonts [runlessShape] = (resolvedFonts, [runlessShape]) :=
  master_probe_skipped_when_fonts_resolved resolvedFonts [runlessShape]
    (by decide) (by decide)

end SlAIde